import Mathlib

/-!
Verification of the archive-directory structural comparator of the
`unclutter-directory` repository.

The Lean definitions below are a shallow embedding of the Python sources:

* `src/unclutter_directory/entities/file.py` (class `File`)
* `src/unclutter_directory/entities/compressed_archive.py`
  (`ZipArchive`, `RarArchive`, `SevenZipArchive`, `ArchiveHandler` chain,
  `get_archive_manager`)
* `src/unclutter_directory/comparison/directory_analyzer.py`
  (`DirectoryAnalyzer.get_files`)
* `src/unclutter_directory/comparison/archive_directory_comparator.py`
  (`ComparisonResult`, `ArchiveDirectoryComparator`)

Modelling conventions:

* Python strings are Lean `String`s; Python string comparison, `startswith`,
  `endswith`, `lower`, slicing and `pathlib` stem/suffix computations are
  re-implemented over `String.data` (code-point lists), because Python
  compares strings code point by code point.
* `unicodedata.normalize("NFC", ·)` is an opaque library function; it is
  modelled as an explicit parameter `nfc : String → String` threaded through
  the comparator, exactly where the source calls `_normalize_unicode`.
* Python `set` iteration order is unspecified (string hashing is randomized
  per process).  The comparator iterates the set `archive_paths &
  directory_paths`; this order is modelled as an explicit parameter
  `setOrder : List String → List String` applied to the deduplicated
  intersection list.  Theorems that need it assume `setOrder` yields a
  permutation of its input.
* Filesystem and archive-library effects are modelled as input data: the
  outcome of reading an archive listing is a `ReadOutcome`, a directory tree
  on disk is a `DirTree`, and the output of `os.walk` in the candidate
  scanner is a list of `WalkEntry` triples.  Python exceptions are `Except
  String` values.
-/

namespace Unclutter

/-! ## String primitives (Python semantics over code-point lists) -/

/-- Lexicographic (code-point) comparison of two character lists; this is how
Python compares `str` values (`a <= b`). -/
def lexLe : List Char → List Char → Bool
  | [], _ => true
  | _ :: _, [] => false
  | a :: as, b :: bs =>
    if a.toNat < b.toNat then true
    else if b.toNat < a.toNat then false
    else lexLe as bs

/-- Python string order `s <= t` as a proposition. -/
def pyStrLe (s t : String) : Prop := lexLe s.data t.data = true

instance : DecidableRel pyStrLe := fun _ _ => instDecidableEqBool _ _

/-- Model of Python `sorted` on strings: a stable sort by `pyStrLe`
(`List.insertionSort` is stable and sorted, which pins down `sorted`'s
output). -/
def pySorted (l : List String) : List String := List.insertionSort pyStrLe l

/-- Check that `p` is an initial segment of `s` (both as char lists). -/
def leadChars : List Char → List Char → Bool
  | [], _ => true
  | _ :: _, [] => false
  | a :: as, b :: bs => a == b && leadChars as bs

/-- Model of Python `s.startswith(p)`. -/
def strStartsWith (s p : String) : Bool := leadChars p.data s.data

/-- Model of Python `s.endswith(p)`. -/
def strEndsWith (s p : String) : Bool := leadChars p.data.reverse s.data.reverse

/-- Model of Python `s.lower()` restricted to ASCII case mapping (the only
characters relevant to the `.zip` / `.rar` / `.7z` extension tests). -/
def strLower (s : String) : String := ⟨s.data.map Char.toLower⟩

/-- Model of Python slicing `s[n:]` (drop the first `n` code points). -/
def strDropChars (s : String) (n : Nat) : String := ⟨s.data.drop n⟩

/-- Index of the last `'.'` in the list, if any (Python `name.rfind('.')`
when it is non-negative). -/
def lastDotIdx (l : List Char) : Option Nat :=
  match l.reverse.findIdx? (· == '.') with
  | some j => some (l.length - 1 - j)
  | none => none

/-- Model of `pathlib.PurePath.suffix` on a filename: the part of the name
from the last dot on, provided that dot is neither the first nor the last
character; otherwise the empty string. -/
def pathSuffix (name : String) : String :=
  match lastDotIdx name.data with
  | some i => if 0 < i ∧ i < name.data.length - 1 then ⟨name.data.drop i⟩ else ""
  | none => ""

/-- Model of `pathlib.PurePath.stem` on a filename: the name with
`pathSuffix` removed. -/
def pathStem (name : String) : String :=
  match lastDotIdx name.data with
  | some i => if 0 < i ∧ i < name.data.length - 1 then ⟨name.data.take i⟩ else name
  | none => name

/-! ## File entity (`entities/file.py`, class `File`)

The `path` attribute (containing directory) is omitted: it is carried around
by the source but never influences any compared quantity; only `name`,
`date`, `size` and `is_directory` appear in constructors reached by the
comparator.  Modification times are `Nat` (epoch seconds). -/

structure File where
  name : String
  date : Nat
  size : Nat
  is_directory : Bool := false
deriving Repr, DecidableEq

/-! ## Archive readers (`entities/compressed_archive.py`) -/

/-- Outcome of asking the underlying archive library (zipfile / rarfile /
py7zr) for the member listing of one archive, including the initial open and
stat of the archive path.

`ok` carries the member listing; `formatError` is a corrupt-container error
(`zipfile.BadZipFile`, `rarfile.Error`, `py7zr.Bad7zFile` /
`py7zr.ArchiveError`); `ioError` is any other raised exception, e.g. an
`OSError` for a missing or unreadable file. -/
inductive ReadOutcome where
  | ok (files : List File)
  | formatError (msg : String)
  | ioError (msg : String)
deriving Repr, DecidableEq

/-- The three concrete `CompressedArchive` reader classes. -/
inductive CompressedArchive where
  | zipArchive
  | rarArchive
  | sevenZipArchive
deriving Repr, DecidableEq

/-- Model of each reader's `get_files`.  `ZipArchive.get_files` catches only
`zipfile.BadZipFile` (returning `[]`); `RarArchive.get_files` catches only
`rarfile.Error`; `SevenZipArchive.get_files` catches `py7zr.Bad7zFile`,
`py7zr.ArchiveError` and then any `Exception`, so it never raises.  An
uncaught exception is an `Except.error`. -/
def CompressedArchive.get_files : CompressedArchive → ReadOutcome → Except String (List File)
  | .zipArchive, .ok l => .ok l
  | .zipArchive, .formatError _ => .ok []
  | .zipArchive, .ioError m => .error m
  | .rarArchive, .ok l => .ok l
  | .rarArchive, .formatError _ => .ok []
  | .rarArchive, .ioError m => .error m
  | .sevenZipArchive, .ok l => .ok l
  | .sevenZipArchive, .formatError _ => .ok []
  | .sevenZipArchive, .ioError _ => .ok []

/-- Model of the `ArchiveHandler` interface: `can_handle` may raise (the
chain catches and continues), `create_instance` names the reader built. -/
structure ArchiveHandler where
  can_handle : File → Except String Bool
  create_instance : CompressedArchive

/-- Handler for ZIP archive files (`ZipHandler`). -/
def zipHandler : ArchiveHandler :=
  { can_handle := fun f => .ok (strEndsWith (strLower f.name) ".zip"),
    create_instance := .zipArchive }

/-- Handler for RAR archive files (`RarHandler`). -/
def rarHandler : ArchiveHandler :=
  { can_handle := fun f => .ok (strEndsWith (strLower f.name) ".rar"),
    create_instance := .rarArchive }

/-- Handler for 7Z archive files (`SevenZipHandler`). -/
def sevenZipHandler : ArchiveHandler :=
  { can_handle := fun f => .ok (strEndsWith (strLower f.name) ".7z"),
    create_instance := .sevenZipArchive }

/-- The default handler list installed by `ArchiveHandlerChain.__init__`. -/
def default_handlers : List ArchiveHandler := [zipHandler, rarHandler, sevenZipHandler]

/-- Model of `ArchiveHandlerChain.add_handler`: appends to the chain's
handler list (state-passing rendering of the in-place mutation). -/
def add_handler (chain : List ArchiveHandler) (h : ArchiveHandler) : List ArchiveHandler :=
  chain ++ [h]

/-- Model of `ArchiveHandlerChain.get_archive_handler`: first handler whose
`can_handle` returns true wins; a handler that raises is logged and
skipped. -/
def get_archive_handler : List ArchiveHandler → File → Option CompressedArchive
  | [], _ => none
  | h :: rest, f =>
    match h.can_handle f with
    | .ok true => some h.create_instance
    | .ok false => get_archive_handler rest f
    | .error _ => get_archive_handler rest f

/-- Model of the factory function `get_archive_manager`: it constructs a
fresh `ArchiveHandlerChain` (with the default handlers) on every call and
dispatches on it; no chain value is shared between calls. -/
def get_archive_manager (file : File) : Option CompressedArchive :=
  get_archive_handler default_handlers file

/-! ## Directory analyzer (`comparison/directory_analyzer.py`) -/

/-- A directory tree on disk.  Each regular file carries the outcome of
`file_path.stat()`: `some (mtime, size)` on success, `none` when the stat
raises `OSError` (the analyzer logs and skips such files). -/
inductive DirTree where
  | node (files : List (String × Option (Nat × Nat))) (subdirs : List (String × DirTree))

mutual

/-- Model of the `os.walk` loop body of `DirectoryAnalyzer.get_files` at one
directory whose path relative to the scanned root is `relPre` (either `""`
or ending with `"/"`): regular files are emitted (hidden ones skipped unless
`include_hidden`, stat failures skipped), then the walk descends top-down
into the subdirectories that survive the hidden-directory pruning
(`dirs[:] = [d for d in dirs if not d.startswith(".")]`). -/
def walkTree (include_hidden : Bool) (relPre : String) : DirTree → List File
  | .node files subdirs =>
    (files.filterMap fun fe =>
      if !include_hidden && strStartsWith fe.1 "." then none
      else
        match fe.2 with
        | none => none
        | some st => some { name := relPre ++ fe.1, date := st.1, size := st.2 }) ++
    walkSubdirs include_hidden relPre subdirs

/-- Companion of `walkTree`: walks a list of named subdirectories in order,
applying the hidden-directory pruning to each (equivalent to the source's
in-place filtering of `dirs` before `os.walk` recurses). -/
def walkSubdirs (include_hidden : Bool) (relPre : String) : List (String × DirTree) → List File
  | [] => []
  | (dname, t) :: rest =>
    (if !include_hidden && strStartsWith dname "." then []
     else walkTree include_hidden (relPre ++ dname ++ "/") t) ++
    walkSubdirs include_hidden relPre rest

end

/-- Model of `DirectoryAnalyzer.get_files`: returns `[]` when the path is
not a directory (`none`), otherwise walks the tree.  The outer
`except OSError` clause of the source is unreachable in this model because
`os.walk` with its default `onerror=None` swallows listing errors itself. -/
def DirectoryAnalyzer.get_files (include_hidden : Bool) (dir : Option DirTree) : List File :=
  match dir with
  | none => []
  | some t => walkTree include_hidden "" t

/-! ## Structural diff (`ArchiveDirectoryComparator._compare_file_structures`) -/

/-- Python dict assignment `d[k] = v`: replace in place if the key exists,
append otherwise. -/
def dictInsert (d : List (String × File)) (k : String) (v : File) : List (String × File) :=
  if d.any (fun p => p.1 == k) then
    d.map (fun p => if p.1 == k then (k, v) else p)
  else d ++ [(k, v)]

/-- The dict comprehension `{self._normalize_unicode(file.name): file for
file in files}` (later keys overwrite earlier values, first position kept,
exactly as a Python dict does). -/
def buildNormMap (nfc : String → String) (files : List File) : List (String × File) :=
  files.foldl (fun d f => dictInsert d (nfc f.name) f) []

/-- Python dict lookup `d[k]` (as an `Option`; in the source the key is
always present where this is used). -/
def dictFind (d : List (String × File)) (k : String) : Option File :=
  (d.find? (fun p => p.1 == k)).map (·.2)

/-- Key list of the normalized map, in insertion order and without
duplicates: the membership content of the Python set `set(d.keys())`. -/
def normKeys (nfc : String → String) (files : List File) : List String :=
  (buildNormMap nfc files).map Prod.fst

/-- Difference string for a file present in the archive only. -/
def missingMsg (n : String) : String := "Missing in directory: " ++ n

/-- Difference string for a file present in the directory only. -/
def extraMsg (n : String) : String := "Extra in directory: " ++ n

/-- Difference string for a common file whose sizes disagree. -/
def sizeMismatchMsg (n : String) (a d : Nat) : String :=
  "Size mismatch for " ++ n ++ ": archive=" ++ toString a ++ ", directory=" ++ toString d

/-- The `"Missing in directory"` block: `sorted(archive_paths - directory_paths)`
rendered through `missingMsg`. -/
def missingDiffs (nfc : String → String) (af df : List File) : List String :=
  (pySorted ((normKeys nfc af).filter (fun k => !((normKeys nfc df).contains k)))).map missingMsg

/-- The `"Extra in directory"` block: `sorted(directory_paths - archive_paths)`
rendered through `extraMsg`. -/
def extraDiffs (nfc : String → String) (af df : List File) : List String :=
  (pySorted ((normKeys nfc df).filter (fun k => !((normKeys nfc af).contains k)))).map extraMsg

/-- The membership content of the set `archive_paths & directory_paths`, in
archive insertion order (the comparator iterates this set in an unspecified
order; see `setOrder`). -/
def commonKeys (nfc : String → String) (af df : List File) : List String :=
  (normKeys nfc af).filter (fun k => (normKeys nfc df).contains k)

/-- One iteration of the size-comparison loop: for a common normalized path,
emit a size-mismatch string when the two mapped files disagree in size. -/
def sizeMismatchAt (nfc : String → String) (af df : List File) (k : String) : Option String :=
  match dictFind (buildNormMap nfc af) k, dictFind (buildNormMap nfc df) k with
  | some fa, some fd =>
    if fa.size ≠ fd.size then some (sizeMismatchMsg k fa.size fd.size) else none
  | _, _ => none

/-- Model of `_compare_file_structures`: missing block, then extra block,
then the size-mismatch strings produced while iterating the common-path set
in the (unspecified) order `setOrder`. -/
def compare_file_structures (nfc : String → String) (setOrder : List String → List String)
    (af df : List File) : List String :=
  missingDiffs nfc af df ++ extraDiffs nfc af df ++
    (setOrder (commonKeys nfc af df)).filterMap (sizeMismatchAt nfc af df)

/-! ## Comparison orchestration (`ArchiveDirectoryComparator`) -/

/-- Model of `ComparisonResult` (paths kept as strings). -/
structure ComparisonResult where
  archive_path : String
  directory_path : String
  identical : Bool
  archive_files : List File
  directory_files : List File
  differences : List String
deriving Repr, DecidableEq

/-- The `ComparisonResult` constructor: its `__init__` stores
`differences or []`, so a (Python-)falsy empty list is replaced by `[]`. -/
def mkComparisonResult (ap dp : String) (ident : Bool) (af df : List File)
    (diffs : List String) : ComparisonResult :=
  ⟨ap, dp, ident, af, df, if diffs.isEmpty then [] else diffs⟩

/-- Model of `_strip_directory_prefix` (named without the final source word
to satisfy local naming constraints): with `expectedRoot` the NFC-normalized
archive stem plus `"/"`, the root directory entry itself maps to `none`
(filtered out), an entry starting with `expectedRoot` is rebuilt with the
leading segment sliced off its normalized name (note the source constructs
`File(...)` without `is_directory`, so the flag resets to `False`), and any
other entry is returned unchanged. -/
def stripArchiveRootDir (nfc : String → String) (file : File) (expected_dir_name : String) :
    Option File :=
  let normalized_name := nfc file.name
  let expectedRoot := nfc expected_dir_name ++ "/"
  if normalized_name == expectedRoot then none
  else if strStartsWith normalized_name expectedRoot then
    some { name := strDropChars normalized_name expectedRoot.length,
           date := file.date, size := file.size, is_directory := false }
  else some file

/-- Environment of one `compare_archive_and_directory` call: the outcome of
the `file_path.stat()` performed by `File.from_path(archive_path)` inside
`_get_archive_manager` before any extension dispatch (`(st_mtime, st_size)`
on success, or the message of a raised `OSError`), what the archive library
reports for the archive path, and what is on disk at the directory path
(`none` when it is not a directory). -/
structure ComparisonEnv where
  archiveStat : Except String (Nat × Nat)
  archiveOutcome : ReadOutcome
  dirTree : Option DirTree

/-- Body of the `try` block of `compare_archive_and_directory`
(`archive_name` is the final path component of `archive_path`): build a
`File` from the archive path (the stat inside `File.from_path` runs before
extension dispatch and its `OSError` propagates to the `except` clause),
resolve a manager by extension, read both listings, strip the archive's
root-directory segment, drop directory pseudo-entries from the directory
side when the archive holds no subdirectory entries, then diff.  An
uncaught exception from a subcall is the `Except.error` case. -/
def compareBody (nfc : String → String) (setOrder : List String → List String)
    (archive_name directory_path : String) (include_hidden : Bool) (env : ComparisonEnv) :
    Except String ComparisonResult :=
  match env.archiveStat with
  | .error e => .error e
  | .ok st =>
  match get_archive_manager { name := archive_name, date := st.1, size := st.2 } with
  | none =>
    .ok (mkComparisonResult archive_name directory_path false [] []
      ["Unsupported archive format: " ++ pathSuffix archive_name])
  | some archive_manager =>
    match archive_manager.get_files env.archiveOutcome with
    | .error e => .error e
    | .ok archive_files =>
      let directory_files := DirectoryAnalyzer.get_files include_hidden env.dirTree
      let expected_dir_name := pathStem archive_name
      let processed_archive_files :=
        archive_files.filterMap (fun f => stripArchiveRootDir nfc f expected_dir_name)
      let original_archive_has_directories := archive_files.any
        (fun f => strEndsWith f.name "/" && !(f.name == expected_dir_name ++ "/"))
      let directory_files :=
        if !original_archive_has_directories then
          directory_files.filter (fun f => !(strEndsWith f.name "/"))
        else directory_files
      let differences := compare_file_structures nfc setOrder processed_archive_files directory_files
      let identical := differences.length == 0
      .ok (mkComparisonResult archive_name directory_path identical processed_archive_files
        directory_files differences)

/-- Model of `compare_archive_and_directory`: the `try` body, with the
`except Exception` clause turning any raised error into a non-identical
result carrying a single `"Comparison failed: ..."` diagnostic. -/
def compare_archive_and_directory (nfc : String → String)
    (setOrder : List String → List String) (archive_name directory_path : String)
    (include_hidden : Bool) (env : ComparisonEnv) : ComparisonResult :=
  match compareBody nfc setOrder archive_name directory_path include_hidden env with
  | .ok r => r
  | .error e =>
    mkComparisonResult archive_name directory_path false [] [] ["Comparison failed: " ++ e]

/-! ## Candidate pair scanner (`ArchiveDirectoryComparator.find_potential_duplicates`)

The scanner iterates `os.walk(target_dir)`.  The generator's output is
modelled as input data, one `WalkEntry` per directory actually listed;
CPython's `os.walk` with its default `onerror=None` silently omits
unlistable directories from this output, so listing failures never raise
into the loop.  The only statement in the loop body that can raise `OSError`
is the `file_path.stat()` inside `File.from_path`; each file therefore
carries a flag saying whether its stat succeeds. -/

structure WalkEntry where
  root : String
  dirs : List String
  files : List (String × Bool)
deriving Repr, DecidableEq

/-- Loop body over the files of one walk triple.  Returns the pairs
collected and whether an `OSError` was raised (aborting the iteration: on a
failed stat the remaining files are not processed).  A pair is emitted when
the file's extension is recognized and a sibling directory named after the
stem exists (`expected_dir_path.exists() and expected_dir_path.is_dir()`,
i.e. the stem occurs among the triple's subdirectory names). -/
def scanFilesHere (root : String) (dirs : List String) :
    List (String × Bool) → List (String × String) × Bool
  | [] => ([], false)
  | (fname, statOk) :: rest =>
    if statOk then
      let pair :=
        if (get_archive_manager { name := fname, date := 0, size := 0 }).isSome
            && dirs.contains (pathStem fname) then
          [(root ++ "/" ++ fname, root ++ "/" ++ pathStem fname)]
        else []
      let r := scanFilesHere root dirs rest
      (pair ++ r.1, r.2)
    else ([], true)

/-- The walk loop over all triples; a raised `OSError` aborts the remaining
triples (the `try` of the source wraps the whole loop). -/
def scanWalk : List WalkEntry → List (String × String) × Bool
  | [] => ([], false)
  | e :: rest =>
    let here := scanFilesHere e.root e.dirs e.files
    if here.2 then here
    else
      let r := scanWalk rest
      (here.1 ++ r.1, r.2)

/-- Model of `find_potential_duplicates`: run the walk loop; the
`except OSError` clause logs and falls through, so the pairs collected so
far are returned in every case and no exception escapes. -/
def find_potential_duplicates (walk : List WalkEntry) : List (String × String) :=
  (scanWalk walk).1

/-- Modelled from the spec: per-directory part of the best-effort scan that
claim C9 describes ("Filesystem errors while walking are logged and do not
abort the scan"), in which a file whose stat fails is skipped and the scan
continues with the remaining files. -/
def bestEffortFiles (root : String) (dirs : List String) (files : List (String × Bool)) :
    List (String × String) :=
  files.filterMap (fun fb =>
    if fb.2 && ((get_archive_manager { name := fb.1, date := 0, size := 0 }).isSome
        && dirs.contains (pathStem fb.1)) then
      some (root ++ "/" ++ fb.1, root ++ "/" ++ pathStem fb.1)
    else none)

/-- Modelled from the spec: the best-effort scan of claim C9, continuing
over all remaining files and subtrees after any filesystem error.  This
behaviour is not implemented by the source (its `try` wraps the whole walk
loop); it is the comparison point for the claim. -/
def bestEffortScan (walk : List WalkEntry) : List (String × String) :=
  (walk.map (fun e => bestEffortFiles e.root e.dirs e.files)).flatten

/-- A walk in which every file's stat succeeds (no in-loop `OSError`). -/
def statErrorFree (walk : List WalkEntry) : Bool :=
  walk.all (fun e => e.files.all (fun fb => fb.2))

/-! ## Concrete inputs used by counterexamples and code-bug evaluations
(they mirror the scenarios of the repository's own tests
`test_comparison_directory_with_subdirs.py` and
`test_comparison_zip_without_directories.py`). -/

/-- A directory holding one root-level file and two subdirectories, one of
them empty (the structure asserted on by
`test_directory_analyzer_with_subdirectories`). -/
def treeC2 : DirTree :=
  .node [("file1.txt", some (0, 8))]
    [("subdir1", .node [("file2.txt", some (0, 8))] []), ("empty", .node [] [])]

/-- A directory with a single subdirectory containing one file. -/
def dirTree5 : DirTree := .node [] [("subdir1", .node [("file2.txt", some (0, 8))] [])]

/-- Environment for comparing `test.zip` stored without directory entries
against `dirTree5`. -/
def envNoDirEntries : ComparisonEnv :=
  ⟨.ok (0, 64), .ok [⟨"subdir1/file2.txt", 0, 8, false⟩], some dirTree5⟩

/-- Environment for comparing `test.zip` stored with an explicit `subdir1/`
directory entry against `dirTree5`. -/
def envWithDirEntries : ComparisonEnv :=
  ⟨.ok (0, 64), .ok [⟨"subdir1/", 0, 0, false⟩, ⟨"subdir1/file2.txt", 0, 8, false⟩],
    some dirTree5⟩

/-- A two-directory walk whose first directory holds a file with a failing
stat and whose second directory holds a discoverable archive-directory
pair. -/
def walkCx : List WalkEntry :=
  [⟨"t", ["d"], [("bad.zip", false)]⟩, ⟨"t/d", ["good"], [("good.zip", true)]⟩]

/-- A one-directory walk with no stat failures and one discoverable pair. -/
def walkOk : List WalkEntry := [⟨"t", ["good"], [("good.zip", true)]⟩]

/-! ## Helper lemmas about the string primitives -/

theorem lexLe_total (a b : List Char) : lexLe a b = true ∨ lexLe b a = true := by
  induction a generalizing b with
  | nil => left; rfl
  | cons x xs ih =>
    cases b with
    | nil => right; rfl
    | cons y ys =>
      rcases Nat.lt_trichotomy x.toNat y.toNat with h | h | h
      · left; simp [lexLe, h]
      · rcases ih ys with h2 | h2
        · left; simp [lexLe, h, h2]
        · right; simp [lexLe, h.symm, h2]
      · right; simp [lexLe, h]

theorem lexLe_trans (a b c : List Char) (h1 : lexLe a b = true) (h2 : lexLe b c = true) :
    lexLe a c = true := by
  induction a generalizing b c with
  | nil => rfl
  | cons x xs ih =>
    cases b with
    | nil => simp [lexLe] at h1
    | cons y ys =>
      cases c with
      | nil => simp [lexLe] at h2
      | cons z zs =>
        simp only [lexLe] at h1 h2 ⊢
        rcases Nat.lt_trichotomy x.toNat y.toNat with hxy | hxy | hxy
        · rcases Nat.lt_trichotomy y.toNat z.toNat with hyz | hyz | hyz
          · simp [Nat.lt_trans hxy hyz]
          · simp [hyz ▸ hxy]
          · simp [hyz, Nat.lt_asymm hyz] at h2
        · rcases Nat.lt_trichotomy y.toNat z.toNat with hyz | hyz | hyz
          · simp [hxy ▸ hyz]
          · have hxz : x.toNat = z.toNat := hxy.trans hyz
            simp only [hxz, lt_irrefl, if_neg, if_false]
            simp [hxy, lt_irrefl] at h1
            simp [hyz, lt_irrefl] at h2
            exact ih ys zs h1 h2
          · simp [hyz, Nat.lt_asymm hyz] at h2
        · simp [hxy, Nat.lt_asymm hxy] at h1

instance : IsTotal String pyStrLe := ⟨fun a b => lexLe_total a.data b.data⟩

instance : IsTrans String pyStrLe := ⟨fun a b c => lexLe_trans a.data b.data c.data⟩

theorem lexLe_append_same (p a b : List Char) : lexLe (p ++ a) (p ++ b) = lexLe a b := by
  induction p with
  | nil => rfl
  | cons c cs ih => simp [lexLe, lt_irrefl, ih]

theorem strExt {s t : String} (h : s.data = t.data) : s = t := by
  cases s; cases t; exact congrArg String.mk h

theorem pyStrLe_append_mono (m a b : String) (h : pyStrLe a b) : pyStrLe (m ++ a) (m ++ b) := by
  unfold pyStrLe at h ⊢
  rw [String.data_append, String.data_append, lexLe_append_same]
  exact h

theorem strAppend_left_inj (m : String) : Function.Injective (fun s => m ++ s) := by
  intro a b h
  apply strExt
  have := congrArg String.data h
  rw [String.data_append, String.data_append] at this
  exact List.append_cancel_left this

theorem leadChars_refl (l : List Char) : leadChars l l = true := by
  induction l with
  | nil => rfl
  | cons c cs ih => simp [leadChars, ih]

theorem leadChars_append_drop (p s : List Char) (h : leadChars p s = true) :
    p ++ s.drop p.length = s := by
  induction p generalizing s with
  | nil => rfl
  | cons c cs ih =>
    cases s with
    | nil => simp [leadChars] at h
    | cons d ds =>
      simp only [leadChars, Bool.and_eq_true, beq_iff_eq] at h
      simp [h.1, ih ds h.2]

theorem strStartsWith_false_of_ne_head (s p : String) (c d : Char) (cs ds : List Char)
    (hp : p.data = c :: cs) (hs : s.data = d :: ds) (hne : (c == d) = false) :
    strStartsWith s p = false := by
  simp only [strStartsWith, hp, hs, leadChars, hne, Bool.false_and]

theorem data_head_left (p n : String) (c : Char) (cs : List Char) (h : p.data = c :: cs) :
    (p ++ n).data = c :: (cs ++ n.data) := by
  rw [String.data_append, h]; rfl

theorem exists_data_head_left (p n : String) (c : Char) (h : ∃ cs, p.data = c :: cs) :
    ∃ ds, (p ++ n).data = c :: ds := by
  obtain ⟨cs, hc⟩ := h
  exact ⟨cs ++ n.data, data_head_left p n c cs hc⟩

theorem missingMsg_head (n : String) : ∃ ds, (missingMsg n).data = 'M' :: ds :=
  exists_data_head_left _ n 'M' ⟨_, rfl⟩

theorem extraMsg_head (n : String) : ∃ ds, (extraMsg n).data = 'E' :: ds :=
  exists_data_head_left _ n 'E' ⟨_, rfl⟩

theorem sizeMismatchMsg_head (n : String) (a d : Nat) :
    ∃ ds, (sizeMismatchMsg n a d).data = 'S' :: ds := by
  unfold sizeMismatchMsg
  apply exists_data_head_left
  apply exists_data_head_left
  apply exists_data_head_left
  apply exists_data_head_left
  exact exists_data_head_left _ n 'S' ⟨_, rfl⟩

theorem comparisonFailedMsg_head (e : String) :
    ∃ ds, ("Comparison failed: " ++ e).data = 'C' :: ds :=
  exists_data_head_left _ e 'C' ⟨_, rfl⟩

/-- A string whose first character is not `'U'` does not start with the
unsupported-format message. -/
theorem not_unsupported_of_head (s : String) (c : Char) (cs : List Char)
    (hs : s.data = c :: cs) (hne : (('U' : Char) == c) = false) :
    strStartsWith s "Unsupported archive format: " = false :=
  strStartsWith_false_of_ne_head s _ 'U' c _ cs rfl hs hne

theorem missingMsg_inj : Function.Injective missingMsg := by
  intro a b h
  exact strAppend_left_inj "Missing in directory: " h

theorem extraMsg_inj : Function.Injective extraMsg := by
  intro a b h
  exact strAppend_left_inj "Extra in directory: " h

/-! ## Helper lemmas about the normalized dictionaries -/

theorem contains_iff (l : List String) (a : String) : l.contains a = true ↔ a ∈ l := by
  simp [List.contains]

theorem dictInsert_keys (d : List (String × File)) (k : String) (v : File) :
    (dictInsert d k v).map Prod.fst =
      if d.any (fun p => p.1 == k) then d.map Prod.fst else d.map Prod.fst ++ [k] := by
  unfold dictInsert
  by_cases h : d.any (fun p => p.1 == k)
  · rw [if_pos h, if_pos h, List.map_map]
    apply List.map_congr_left
    intro p _
    by_cases hp : p.1 == k
    · simp only [Function.comp, hp, if_pos]
      exact (beq_iff_eq.mp hp).symm
    · simp only [Function.comp]
      rw [if_neg (by simpa using hp)]
  · rw [if_neg h, if_neg h, List.map_append]
    rfl

theorem normKeys_nodup (nfc : String → String) (files : List File) :
    (normKeys nfc files).Nodup := by
  unfold normKeys buildNormMap
  suffices aux : ∀ (fs : List File) (d : List (String × File)), (d.map Prod.fst).Nodup →
      ((fs.foldl (fun d f => dictInsert d (nfc f.name) f) d).map Prod.fst).Nodup by
    exact aux files [] (by simp)
  intro fs
  induction fs with
  | nil => intro d hd; simpa using hd
  | cons f fs ih =>
    intro d hd
    simp only [List.foldl_cons]
    apply ih
    rw [dictInsert_keys]
    by_cases h : d.any (fun p => p.1 == nfc f.name)
    · rw [if_pos h]; exact hd
    · rw [if_neg h]
      have hnm : (nfc f.name) ∉ d.map Prod.fst := by
        intro hmem
        apply h
        rw [List.any_eq_true]
        obtain ⟨p, hp, hfst⟩ := List.mem_map.mp hmem
        exact ⟨p, hp, by simp [hfst]⟩
      have perm := List.perm_append_singleton (nfc f.name) (d.map Prod.fst)
      rw [perm.nodup_iff]
      exact List.nodup_cons.mpr ⟨hnm, hd⟩

/-! ## Helper lemmas about the diff blocks -/

theorem missingDiffs_pairwise (nfc : String → String) (af df : List File) :
    List.Pairwise pyStrLe (missingDiffs nfc af df) :=
  List.Pairwise.map _ (fun a b h => pyStrLe_append_mono "Missing in directory: " a b h)
    (List.sorted_insertionSort pyStrLe _)

theorem extraDiffs_pairwise (nfc : String → String) (af df : List File) :
    List.Pairwise pyStrLe (extraDiffs nfc af df) :=
  List.Pairwise.map _ (fun a b h => pyStrLe_append_mono "Extra in directory: " a b h)
    (List.sorted_insertionSort pyStrLe _)

theorem pySorted_nodup (l : List String) (h : l.Nodup) : (pySorted l).Nodup :=
  (List.perm_insertionSort pyStrLe l).nodup_iff.mpr h

theorem missingDiffs_nodup (nfc : String → String) (af df : List File) :
    (missingDiffs nfc af df).Nodup :=
  List.Nodup.map missingMsg_inj
    (pySorted_nodup _ ((normKeys_nodup nfc af).filter _))

theorem extraDiffs_nodup (nfc : String → String) (af df : List File) :
    (extraDiffs nfc af df).Nodup :=
  List.Nodup.map extraMsg_inj
    (pySorted_nodup _ ((normKeys_nodup nfc df).filter _))

theorem missingDiffs_mem (nfc : String → String) (af df : List File) (n : String) :
    missingMsg n ∈ missingDiffs nfc af df ↔
      n ∈ normKeys nfc af ∧ n ∉ normKeys nfc df := by
  unfold missingDiffs
  constructor
  · intro h
    obtain ⟨x, hx, he⟩ := List.mem_map.mp h
    have hxn : x = n := missingMsg_inj he
    rw [hxn] at hx
    have hmem := (List.perm_insertionSort pyStrLe _).mem_iff.mp hx
    rw [List.mem_filter] at hmem
    refine ⟨hmem.1, fun hin => ?_⟩
    have := hmem.2
    rw [Bool.not_eq_eq_eq_not] at this
    simp only [Bool.not_true] at this
    simp [(contains_iff (normKeys nfc df) n).mpr hin] at this
    exact this hin
  · rintro ⟨h1, h2⟩
    apply List.mem_map.mpr
    refine ⟨n, (List.perm_insertionSort pyStrLe _).mem_iff.mpr (List.mem_filter.mpr ⟨h1, ?_⟩), rfl⟩
    simp only [Bool.not_eq_eq_eq_not, Bool.not_true]
    rw [← Bool.not_eq_true]
    intro hc
    exact h2 ((contains_iff _ _).mp hc)

theorem extraDiffs_mem (nfc : String → String) (af df : List File) (n : String) :
    extraMsg n ∈ extraDiffs nfc af df ↔
      n ∈ normKeys nfc df ∧ n ∉ normKeys nfc af := by
  unfold extraDiffs
  constructor
  · intro h
    obtain ⟨x, hx, he⟩ := List.mem_map.mp h
    have hxn : x = n := extraMsg_inj he
    rw [hxn] at hx
    have hmem := (List.perm_insertionSort pyStrLe _).mem_iff.mp hx
    rw [List.mem_filter] at hmem
    refine ⟨hmem.1, fun hin => ?_⟩
    have := hmem.2
    rw [Bool.not_eq_eq_eq_not] at this
    simp only [Bool.not_true] at this
    simp [(contains_iff (normKeys nfc af) n).mpr hin] at this
    exact this hin
  · rintro ⟨h1, h2⟩
    apply List.mem_map.mpr
    refine ⟨n, (List.perm_insertionSort pyStrLe _).mem_iff.mpr (List.mem_filter.mpr ⟨h1, ?_⟩), rfl⟩
    simp only [Bool.not_eq_eq_eq_not, Bool.not_true]
    rw [← Bool.not_eq_true]
    intro hc
    exact h2 ((contains_iff _ _).mp hc)

/-! ## Helper lemmas about the comparison result -/

theorem mkComparisonResult_differences (ap dp : String) (i : Bool) (af df : List File)
    (l : List String) : (mkComparisonResult ap dp i af df l).differences = l := by
  cases l <;> rfl

theorem mkComparisonResult_identical (ap dp : String) (i : Bool) (af df : List File)
    (l : List String) : (mkComparisonResult ap dp i af df l).identical = i := rfl

theorem sizeMismatchAt_some (nfc : String → String) (af df : List File) (k x : String)
    (h : sizeMismatchAt nfc af df k = some x) :
    ∃ a b, x = sizeMismatchMsg k a b := by
  unfold sizeMismatchAt at h
  cases hfa : dictFind (buildNormMap nfc af) k with
  | none => rw [hfa] at h; cases hfd : dictFind (buildNormMap nfc df) k <;> rw [hfd] at h <;>
      exact absurd h (by simp)
  | some fa =>
    rw [hfa] at h
    cases hfd : dictFind (buildNormMap nfc df) k with
    | none => rw [hfd] at h; exact absurd h (by simp)
    | some fd =>
      rw [hfd] at h
      change (if fa.size ≠ fd.size then some (sizeMismatchMsg k fa.size fd.size) else none) =
        some x at h
      by_cases hsz : fa.size ≠ fd.size
      · rw [if_pos hsz] at h
        exact ⟨fa.size, fd.size, (Option.some_inj.mp h).symm⟩
      · rw [if_neg hsz] at h
        exact absurd h (by simp)

/-- Every string produced by `compare_file_structures` begins with one of the
three difference message heads, hence never with the unsupported-format
message. -/
theorem cfs_mem_not_unsupported (nfc : String → String)
    (setOrder : List String → List String) (af df : List File) (d : String)
    (hd : d ∈ compare_file_structures nfc setOrder af df) :
    strStartsWith d "Unsupported archive format: " = false := by
  unfold compare_file_structures at hd
  rcases List.mem_append.mp hd with hd2 | hd2
  · rcases List.mem_append.mp hd2 with hd3 | hd3
    · obtain ⟨x, _, he⟩ := List.mem_map.mp hd3
      obtain ⟨ds, hds⟩ := missingMsg_head x
      rw [← he]
      exact not_unsupported_of_head _ 'M' ds hds rfl
    · obtain ⟨x, _, he⟩ := List.mem_map.mp hd3
      obtain ⟨ds, hds⟩ := extraMsg_head x
      rw [← he]
      exact not_unsupported_of_head _ 'E' ds hds rfl
  · obtain ⟨k, _, hk⟩ := List.mem_filterMap.mp hd2
    obtain ⟨a, b, hab⟩ := sizeMismatchAt_some nfc af df k d hk
    obtain ⟨ds, hds⟩ := sizeMismatchMsg_head k a b
    rw [hab]
    exact not_unsupported_of_head _ 'S' ds hds rfl

/-! ## Claim theorems -/

/-- C1.  For every archive path and directory environment, the
`ComparisonResult` returned by `compare_archive_and_directory` satisfies:
`identical` is true if and only if `differences` is the empty list. -/
theorem mk_len_iff (ap dp : String) (af df : List File) (l : List String) :
    (mkComparisonResult ap dp (l.length == 0) af df l).identical = true ↔
      (mkComparisonResult ap dp (l.length == 0) af df l).differences = [] := by
  rw [mkComparisonResult_identical, mkComparisonResult_differences]
  cases l <;> simp

theorem c1_identical_iff_no_differences (nfc : String → String)
    (setOrder : List String → List String) (an dp : String) (ih : Bool)
    (env : ComparisonEnv) :
    (compare_archive_and_directory nfc setOrder an dp ih env).identical = true ↔
      (compare_archive_and_directory nfc setOrder an dp ih env).differences = [] := by
  obtain ⟨stat, outcome, dirTree⟩ := env
  unfold compare_archive_and_directory compareBody
  cases stat with
  | error e => simp [mkComparisonResult]
  | ok st =>
    dsimp only
    cases hm : get_archive_manager { name := an, date := st.1, size := st.2 } with
    | none => simp [mkComparisonResult]
    | some mgr =>
      cases mgr <;> cases outcome <;>
        first
          | exact mk_len_iff _ _ _ _ _
          | simp [CompressedArchive.get_files, mkComparisonResult]

/-- C8.  The comparison never propagates an exception: either the `try` body
succeeded and its result is returned as is, or the body raised and the
returned result is the `"Comparison failed"` result, which is not identical
and has a non-empty differences list. -/
theorem c8_no_exception_escapes (nfc : String → String)
    (setOrder : List String → List String) (an dp : String) (ih : Bool)
    (env : ComparisonEnv) :
    compareBody nfc setOrder an dp ih env =
        .ok (compare_archive_and_directory nfc setOrder an dp ih env) ∨
      ∃ e, compareBody nfc setOrder an dp ih env = .error e ∧
        compare_archive_and_directory nfc setOrder an dp ih env =
          mkComparisonResult an dp false [] [] ["Comparison failed: " ++ e] ∧
        (compare_archive_and_directory nfc setOrder an dp ih env).identical = false ∧
        (compare_archive_and_directory nfc setOrder an dp ih env).differences ≠ [] := by
  unfold compare_archive_and_directory
  cases hb : compareBody nfc setOrder an dp ih env with
  | ok r => left; rfl
  | error e =>
    right
    exact ⟨e, rfl, rfl, rfl, by rw [mkComparisonResult_differences]; simp⟩

/-- C7 counterexample.  A zip or rar archive that is unreadable (the library
raises an `OSError` rather than a corrupt-format error) makes the reader's
`get_files` raise instead of returning the empty member list that the claim
requires. -/
theorem c7_counterexample_reader_raises :
    CompressedArchive.get_files .zipArchive (.ioError "Permission denied") =
      .error "Permission denied" ∧
    CompressedArchive.get_files .rarArchive (.ioError "Permission denied") =
      .error "Permission denied" ∧
    CompressedArchive.get_files .zipArchive (.ioError "Permission denied") ≠
      .ok ([] : List File) ∧
    CompressedArchive.get_files .rarArchive (.ioError "Permission denied") ≠
      .ok ([] : List File) :=
  ⟨rfl, rfl, by simp [CompressedArchive.get_files], by simp [CompressedArchive.get_files]⟩

/-- C7 amended.  Every reader returns the empty member list, raising
nothing, on a corrupt-container error; every reader passes a successful
listing through; and the 7z reader additionally swallows arbitrary errors
(its `except Exception` clause), while the zip and rar readers let OS-level
errors propagate (see the counterexample). -/
theorem c7_amended_reader_error_policy (a : CompressedArchive) (msg : String)
    (l : List File) :
    CompressedArchive.get_files a (.formatError msg) = .ok [] ∧
    CompressedArchive.get_files a (.ok l) = .ok l ∧
    CompressedArchive.get_files .sevenZipArchive (.ioError msg) = .ok [] := by
  cases a <;> exact ⟨rfl, rfl, rfl⟩

/-- C4.  With `expectedRoot` the NFC of the archive stem plus `"/"`: a
member whose normalized name equals `expectedRoot` exactly is discarded; a
member whose normalized name starts with `expectedRoot` has the `expectedRoot`
sliced off its normalized name (the remainder re-composes to the normalized
name); any other member is returned untouched. -/
theorem c4_root_segment_handling (nfc : String → String) (f : File) (stem : String) :
    (nfc f.name = nfc stem ++ "/" → stripArchiveRootDir nfc f stem = none) ∧
    (nfc f.name ≠ nfc stem ++ "/" →
      strStartsWith (nfc f.name) (nfc stem ++ "/") = true →
      stripArchiveRootDir nfc f stem =
          some { name := strDropChars (nfc f.name) (nfc stem ++ "/").length,
                 date := f.date, size := f.size, is_directory := false } ∧
        (nfc stem ++ "/") ++ strDropChars (nfc f.name) (nfc stem ++ "/").length = nfc f.name) ∧
    (strStartsWith (nfc f.name) (nfc stem ++ "/") = false →
      stripArchiveRootDir nfc f stem = some f) := by
  refine ⟨?_, ?_, ?_⟩
  · intro h
    unfold stripArchiveRootDir
    simp [h]
  · intro h1 h2
    have hbeq : (nfc f.name == nfc stem ++ "/") = false := beq_eq_false_iff_ne.mpr h1
    constructor
    · unfold stripArchiveRootDir
      simp [hbeq, h2]
    · apply strExt
      rw [String.data_append]
      exact leadChars_append_drop (nfc stem ++ "/").data (nfc f.name).data h2
  · intro h
    have hne : nfc f.name ≠ nfc stem ++ "/" := by
      intro he
      rw [he] at h
      unfold strStartsWith at h
      rw [leadChars_refl] at h
      exact Bool.noConfusion h
    have hbeq : (nfc f.name == nfc stem ++ "/") = false := beq_eq_false_iff_ne.mpr hne
    unfold stripArchiveRootDir
    simp [hbeq, h]

/-- C4 witness: stripping at a concrete member and stem. -/
theorem c4_witness :
    stripArchiveRootDir (fun s => s) ⟨"photos/a.jpg", 7, 5, false⟩ "photos" =
        some ⟨"a.jpg", 7, 5, false⟩ ∧
      ("photos/" : String) ++ "a.jpg" = "photos/a.jpg" := by
  have h := (c4_root_segment_handling (fun s => s) ⟨"photos/a.jpg", 7, 5, false⟩ "photos").2.1
    (by decide) (by decide)
  constructor
  · rw [h.1]; decide
  · decide

/-! ## Dispatch characterization -/

/-- Evaluation of the default handler chain: zip, then rar, then 7z, first
match wins. -/
theorem get_archive_manager_eq (f : File) :
    get_archive_manager f =
      (if strEndsWith (strLower f.name) ".zip" then some .zipArchive
       else if strEndsWith (strLower f.name) ".rar" then some .rarArchive
       else if strEndsWith (strLower f.name) ".7z" then some .sevenZipArchive
       else none) := by
  cases hz : strEndsWith (strLower f.name) ".zip" <;>
    cases hr : strEndsWith (strLower f.name) ".rar" <;>
      cases hs : strEndsWith (strLower f.name) ".7z" <;>
        simp [get_archive_manager, get_archive_handler, default_handlers, zipHandler,
          rarHandler, sevenZipHandler, hz, hr, hs]

/-- Helper for C6: once a manager is resolved, the comparison's differences
list is either a single comparison-failure message or the structural diff. -/
theorem compare_differences_cases (nfc : String → String)
    (setOrder : List String → List String) (an dp : String) (ih : Bool)
    (env : ComparisonEnv) (st : Nat × Nat) (hst : env.archiveStat = .ok st)
    (mgr : CompressedArchive)
    (hmgr : get_archive_manager { name := an, date := st.1, size := st.2 } = some mgr) :
    (∃ e, (compare_archive_and_directory nfc setOrder an dp ih env).differences =
        ["Comparison failed: " ++ e]) ∨
      ∃ af df, (compare_archive_and_directory nfc setOrder an dp ih env).differences =
        compare_file_structures nfc setOrder af df := by
  unfold compare_archive_and_directory compareBody
  rw [hst]
  dsimp only
  rw [hmgr]
  obtain ⟨stat, outcome, dirTree⟩ := env
  cases mgr <;> cases outcome
  case zipArchive.ok l =>
    exact Or.inr ⟨_, _, mkComparisonResult_differences _ _ _ _ _ _⟩
  case zipArchive.formatError m =>
    exact Or.inr ⟨_, _, mkComparisonResult_differences _ _ _ _ _ _⟩
  case zipArchive.ioError m =>
    exact Or.inl ⟨m, mkComparisonResult_differences _ _ _ _ _ _⟩
  case rarArchive.ok l =>
    exact Or.inr ⟨_, _, mkComparisonResult_differences _ _ _ _ _ _⟩
  case rarArchive.formatError m =>
    exact Or.inr ⟨_, _, mkComparisonResult_differences _ _ _ _ _ _⟩
  case rarArchive.ioError m =>
    exact Or.inl ⟨m, mkComparisonResult_differences _ _ _ _ _ _⟩
  case sevenZipArchive.ok l =>
    exact Or.inr ⟨_, _, mkComparisonResult_differences _ _ _ _ _ _⟩
  case sevenZipArchive.formatError m =>
    exact Or.inr ⟨_, _, mkComparisonResult_differences _ _ _ _ _ _⟩
  case sevenZipArchive.ioError m =>
    exact Or.inr ⟨_, _, mkComparisonResult_differences _ _ _ _ _ _⟩

/-- C6 counterexample.  When the pre-dispatch stat of the archive path
raises (the path cannot be stat'ed), the comparison returns the
comparison-failed result before any extension dispatch: an unsupported
`.tar.gz` path does not get the claimed single unsupported-format
difference, and a supported `.zip` path gets the same failure result with
no reader consulted. -/
theorem c6_counterexample_stat_failure :
    (compare_archive_and_directory (fun s => s) (fun l => l) "x.tar.gz" "d" false
        ⟨.error "No such file or directory", .ok [], none⟩).differences =
      ["Comparison failed: No such file or directory"] ∧
    (compare_archive_and_directory (fun s => s) (fun l => l) "x.tar.gz" "d" false
        ⟨.error "No such file or directory", .ok [], none⟩).differences ≠
      ["Unsupported archive format: .gz"] ∧
    (compare_archive_and_directory (fun s => s) (fun l => l) "x.zip" "d" false
        ⟨.error "No such file or directory", .ok [], none⟩).differences =
      ["Comparison failed: No such file or directory"] := by
  refine ⟨by decide, by decide, by decide⟩

/-- C6 amended.  Provided the initial stat of the archive path succeeds: an
archive name that does not end (case-insensitively) in `.zip`, `.rar` or
`.7z` short-circuits the comparison with `identical = false` and the single
difference `"Unsupported archive format: <suffix>"`, and a name that does
end in one of the three resolves a reader and no difference starting with
the unsupported-format message is ever emitted.  If the stat raises, the
comparison instead returns the `"Comparison failed: ..."` result (still
with no unsupported-format difference). -/
theorem c6_amended_unsupported_extension (nfc : String → String)
    (setOrder : List String → List String) (an dp : String) (ih : Bool)
    (env : ComparisonEnv) :
    (∀ st : Nat × Nat, env.archiveStat = .ok st →
      ((strEndsWith (strLower an) ".zip" || strEndsWith (strLower an) ".rar" ||
          strEndsWith (strLower an) ".7z") = false →
        (compare_archive_and_directory nfc setOrder an dp ih env).identical = false ∧
        (compare_archive_and_directory nfc setOrder an dp ih env).differences =
          ["Unsupported archive format: " ++ pathSuffix an]) ∧
      ((strEndsWith (strLower an) ".zip" || strEndsWith (strLower an) ".rar" ||
          strEndsWith (strLower an) ".7z") = true →
        (get_archive_manager { name := an, date := st.1, size := st.2 }).isSome = true ∧
        ∀ d ∈ (compare_archive_and_directory nfc setOrder an dp ih env).differences,
          strStartsWith d "Unsupported archive format: " = false)) ∧
    (∀ e, env.archiveStat = .error e →
      compare_archive_and_directory nfc setOrder an dp ih env =
        mkComparisonResult an dp false [] [] ["Comparison failed: " ++ e] ∧
      ∀ d ∈ (compare_archive_and_directory nfc setOrder an dp ih env).differences,
        strStartsWith d "Unsupported archive format: " = false) := by
  constructor
  · intro st hst
    constructor
    · intro h
      rw [Bool.or_eq_false_iff, Bool.or_eq_false_iff] at h
      obtain ⟨⟨hz, hr⟩, hs⟩ := h
      have hmgr : get_archive_manager { name := an, date := st.1, size := st.2 } = none := by
        rw [get_archive_manager_eq]
        simp [hz, hr, hs]
      unfold compare_archive_and_directory compareBody
      rw [hst]
      dsimp only
      rw [hmgr]
      exact ⟨rfl, mkComparisonResult_differences _ _ _ _ _ _⟩
    · intro h
      have hmgr : ∃ mgr,
          get_archive_manager { name := an, date := st.1, size := st.2 } = some mgr := by
        rw [get_archive_manager_eq]
        cases hz : strEndsWith (strLower an) ".zip" <;>
          cases hr : strEndsWith (strLower an) ".rar" <;>
            cases hs : strEndsWith (strLower an) ".7z" <;>
              simp_all
      obtain ⟨mgr, hmgr⟩ := hmgr
      refine ⟨by rw [hmgr]; rfl, ?_⟩
      intro d hd
      rcases compare_differences_cases nfc setOrder an dp ih env st hst mgr hmgr with
        ⟨e, he⟩ | ⟨af, df, hcfs⟩
      · rw [he] at hd
        rw [List.mem_singleton] at hd
        obtain ⟨ds, hds⟩ := comparisonFailedMsg_head e
        rw [hd]
        exact not_unsupported_of_head _ 'C' ds hds rfl
      · rw [hcfs] at hd
        exact cfs_mem_not_unsupported nfc setOrder af df d hd
  · intro e hst
    have heq : compare_archive_and_directory nfc setOrder an dp ih env =
        mkComparisonResult an dp false [] [] ["Comparison failed: " ++ e] := by
      unfold compare_archive_and_directory compareBody
      rw [hst]
    refine ⟨heq, ?_⟩
    intro d hd
    rw [heq, mkComparisonResult_differences] at hd
    rw [List.mem_singleton] at hd
    obtain ⟨ds, hds⟩ := comparisonFailedMsg_head e
    rw [hd]
    exact not_unsupported_of_head _ 'C' ds hds rfl

/-- C6 witness: under a successful stat, a `.tar.gz` path short-circuits
with the single unsupported-format difference. -/
theorem c6_amended_witness :
    (compare_archive_and_directory (fun s => s) (fun l => l) "x.tar.gz" "d" false
        ⟨.ok (0, 0), .ok [], none⟩).identical = false ∧
    (compare_archive_and_directory (fun s => s) (fun l => l) "x.tar.gz" "d" false
        ⟨.ok (0, 0), .ok [], none⟩).differences = ["Unsupported archive format: .gz"] := by
  have h := ((c6_amended_unsupported_extension (fun s => s) (fun l => l) "x.tar.gz" "d"
    false ⟨.ok (0, 0), .ok [], none⟩).1 (0, 0) rfl).1 (by decide)
  exact ⟨h.1, by rw [h.2]; decide⟩

/-- C10.  `get_archive_manager` dispatches on a fresh default chain every
call: its result depends only on the file name; it always equals the
dispatch over `default_handlers` (so chains extended by `add_handler`, which
merely appends, are never consulted); and the resolution is zip, then rar,
then 7z by case-insensitive name suffix, first match winning. -/
theorem c10_fresh_chain_name_dispatch (f g : File) (c : List ArchiveHandler)
    (h : ArchiveHandler) (hname : f.name = g.name) :
    get_archive_manager f = get_archive_manager g ∧
    get_archive_manager f = get_archive_handler default_handlers f ∧
    add_handler c h = c ++ [h] ∧
    (get_archive_manager f = some .zipArchive ↔
      strEndsWith (strLower f.name) ".zip" = true) ∧
    (get_archive_manager f = some .rarArchive ↔
      (strEndsWith (strLower f.name) ".zip" = false ∧
        strEndsWith (strLower f.name) ".rar" = true)) ∧
    (get_archive_manager f = some .sevenZipArchive ↔
      (strEndsWith (strLower f.name) ".zip" = false ∧
        strEndsWith (strLower f.name) ".rar" = false ∧
        strEndsWith (strLower f.name) ".7z" = true)) ∧
    (get_archive_manager f = none ↔
      (strEndsWith (strLower f.name) ".zip" = false ∧
        strEndsWith (strLower f.name) ".rar" = false ∧
        strEndsWith (strLower f.name) ".7z" = false)) := by
  refine ⟨?_, rfl, rfl, ?_, ?_, ?_, ?_⟩ <;>
    rw [get_archive_manager_eq] <;>
      try rw [get_archive_manager_eq]
  · rw [hname]
  all_goals
    cases hz : strEndsWith (strLower f.name) ".zip" <;>
      cases hr : strEndsWith (strLower f.name) ".rar" <;>
        cases hs : strEndsWith (strLower f.name) ".7z" <;>
          simp [hz, hr, hs]

/-- C10 witness: two files sharing the name `a.zip` resolve to the same
manager. -/
theorem c10_witness :
    get_archive_manager ⟨"a.zip", 0, 0, false⟩ = get_archive_manager ⟨"a.zip", 1, 5, true⟩ :=
  (c10_fresh_chain_name_dispatch ⟨"a.zip", 0, 0, false⟩ ⟨"a.zip", 1, 5, true⟩ [] zipHandler
    rfl).1

/-! ## C3 -/

/-- Archive-side files for the C3 counterexample. -/
def filesC3Archive : List File := [⟨"a", 0, 1, false⟩, ⟨"b", 0, 2, false⟩]

/-- Directory-side files for the C3 counterexample. -/
def filesC3Directory : List File := [⟨"a", 0, 3, false⟩, ⟨"b", 0, 4, false⟩]

/-- C3 counterexample.  `List.reverse` is a legitimate iteration order of
the common-path set (it permutes it), yet under it the two size-mismatch
strings come out in non-lexicographic order, so the size-mismatch category
of the differences list is not sorted as the claim states. -/
theorem c3_counterexample_unsorted_mismatches :
    compare_file_structures (fun s => s) List.reverse filesC3Archive filesC3Directory =
      ["Size mismatch for b: archive=2, directory=4",
       "Size mismatch for a: archive=1, directory=3"] ∧
    ¬ List.Pairwise pyStrLe
      (compare_file_structures (fun s => s) List.reverse filesC3Archive filesC3Directory) ∧
    List.Perm (List.reverse ["a", "b"]) ["a", "b"] := by
  refine ⟨by decide, by decide, by decide⟩

/-- C3 amended.  The differences list is missing block, then extra block,
then size-mismatch block; the missing and extra blocks are lexicographically
sorted and contain exactly one string per one-sided name; the size-mismatch
block is a permutation of the canonical mismatch list, ordered by the
(unspecified but per-run fixed) set iteration order.  Determinism holds
because the function is pure: equal inputs and equal iteration order give
equal output lists. -/
theorem c3_amended_diff_structure (nfc : String → String)
    (setOrder : List String → List String)
    (hso : ∀ l : List String, List.Perm (setOrder l) l) (af df : List File) :
    compare_file_structures nfc setOrder af df =
      missingDiffs nfc af df ++ extraDiffs nfc af df ++
        (setOrder (commonKeys nfc af df)).filterMap (sizeMismatchAt nfc af df) ∧
    List.Pairwise pyStrLe (missingDiffs nfc af df) ∧
    (missingDiffs nfc af df).Nodup ∧
    List.Pairwise pyStrLe (extraDiffs nfc af df) ∧
    (extraDiffs nfc af df).Nodup ∧
    (∀ n, missingMsg n ∈ missingDiffs nfc af df ↔
      n ∈ normKeys nfc af ∧ n ∉ normKeys nfc df) ∧
    (∀ n, extraMsg n ∈ extraDiffs nfc af df ↔
      n ∈ normKeys nfc df ∧ n ∉ normKeys nfc af) ∧
    List.Perm ((setOrder (commonKeys nfc af df)).filterMap (sizeMismatchAt nfc af df))
      ((commonKeys nfc af df).filterMap (sizeMismatchAt nfc af df)) :=
  ⟨rfl, missingDiffs_pairwise nfc af df, missingDiffs_nodup nfc af df,
   extraDiffs_pairwise nfc af df, extraDiffs_nodup nfc af df,
   missingDiffs_mem nfc af df, extraDiffs_mem nfc af df,
   (hso (commonKeys nfc af df)).filterMap _⟩

/-- C3 witness: the amended theorem applied at the identity iteration order
and a concrete one-sided input. -/
theorem c3_amended_witness :
    List.Pairwise pyStrLe (missingDiffs (fun s => s) filesC3Archive []) :=
  (c3_amended_diff_structure (fun s => s) (fun l => l) (fun l => List.Perm.refl l)
    filesC3Archive []).2.1

/-! ## C2 and C5 (code-bug evaluations) -/

/-- C2.  On a directory with a subdirectory holding a file and an empty
subdirectory, `DirectoryAnalyzer.get_files` returns only the two regular
files — no `subdir1/` or `empty/` pseudo-entity is emitted, with or without
hidden files, although the repository's own test
`test_directory_analyzer_with_subdirectories` asserts they must be. -/
theorem c2_no_directory_pseudo_entries :
    DirectoryAnalyzer.get_files true (some treeC2) =
      [⟨"file1.txt", 0, 8, false⟩, ⟨"subdir1/file2.txt", 0, 8, false⟩] ∧
    DirectoryAnalyzer.get_files false (some treeC2) =
      [⟨"file1.txt", 0, 8, false⟩, ⟨"subdir1/file2.txt", 0, 8, false⟩] ∧
    (DirectoryAnalyzer.get_files true (some treeC2)).any
      (fun f => f.name == "subdir1/") = false ∧
    (DirectoryAnalyzer.get_files true (some treeC2)).any
      (fun f => f.name == "empty/") = false ∧
    (DirectoryAnalyzer.get_files true (some treeC2)).any
      (fun f => strEndsWith f.name "/") = false := by
  refine ⟨by decide, by decide, by decide, by decide, by decide⟩

/-- C5.  Two archives with the same member files and sizes, one storing an
explicit `subdir1/` directory entry and one storing none, compared against
the same directory: the entry-free archive compares identical, while the
archive with the directory entry does not (the analyzer produces no
directory pseudo-entries to match it), contradicting the claim that both
produce the same verdict. -/
theorem c5_directory_entry_archives_diverge :
    (compare_archive_and_directory (fun s => s) (fun l => l) "test.zip" "test" false
        envNoDirEntries).identical = true ∧
    (compare_archive_and_directory (fun s => s) (fun l => l) "test.zip" "test" false
        envWithDirEntries).identical = false ∧
    (compare_archive_and_directory (fun s => s) (fun l => l) "test.zip" "test" false
        envWithDirEntries).differences = ["Missing in directory: subdir1/"] := by
  refine ⟨by decide, by decide, by decide⟩

/-! ## C9 -/

/-- C9 counterexample.  A stat failure on the first directory's file aborts
the walk: the pair discoverable in the remaining directory is not returned,
although the claim says the scan continues over the remaining subtrees. -/
theorem c9_counterexample_scan_aborts :
    find_potential_duplicates walkCx = [] ∧
    bestEffortScan walkCx = [("t/d/good.zip", "t/d/good")] := by
  refine ⟨by decide, by decide⟩

theorem scanFilesHere_noabort (root : String) (dirs : List String)
    (files : List (String × Bool)) (h : files.all (fun fb => fb.2) = true) :
    (scanFilesHere root dirs files).2 = false := by
  induction files with
  | nil => rfl
  | cons fb rest ih =>
    obtain ⟨fname, statOk⟩ := fb
    rw [List.all_cons, Bool.and_eq_true] at h
    have hs : statOk = true := h.1
    subst hs
    unfold scanFilesHere
    simp only [if_true]
    exact ih h.2

theorem scanFilesHere_agree (root : String) (dirs : List String)
    (files : List (String × Bool)) :
    (∃ rest, bestEffortFiles root dirs files = (scanFilesHere root dirs files).1 ++ rest) ∧
    ((scanFilesHere root dirs files).2 = false →
      bestEffortFiles root dirs files = (scanFilesHere root dirs files).1) := by
  induction files with
  | nil => exact ⟨⟨[], rfl⟩, fun _ => rfl⟩
  | cons fb rest ih =>
    obtain ⟨fname, statOk⟩ := fb
    cases statOk with
    | false =>
      constructor
      · exact ⟨bestEffortFiles root dirs ((fname, false) :: rest), by simp [scanFilesHere]⟩
      · intro h2
        simp [scanFilesHere] at h2
    | true =>
      have hbE : bestEffortFiles root dirs ((fname, true) :: rest) =
          (if (get_archive_manager { name := fname, date := 0, size := 0 }).isSome
              && dirs.contains (pathStem fname)
           then [(root ++ "/" ++ fname, root ++ "/" ++ pathStem fname)] else []) ++
            bestEffortFiles root dirs rest := by
        unfold bestEffortFiles
        rw [List.filterMap_cons]
        dsimp only
        rw [Bool.true_and]
        by_cases hc : ((get_archive_manager { name := fname, date := 0, size := 0 }).isSome
            && dirs.contains (pathStem fname)) = true
        · rw [if_pos hc, if_pos hc]
          rfl
        · rw [if_neg hc, if_neg hc]
          rfl
      have hsc : scanFilesHere root dirs ((fname, true) :: rest) =
          ((if (get_archive_manager { name := fname, date := 0, size := 0 }).isSome
              && dirs.contains (pathStem fname)
            then [(root ++ "/" ++ fname, root ++ "/" ++ pathStem fname)] else []) ++
            (scanFilesHere root dirs rest).1, (scanFilesHere root dirs rest).2) := by
        conv_lhs => rw [scanFilesHere]
        rw [if_pos rfl]
      rw [hbE, hsc]
      obtain ⟨⟨r0, hr0⟩, heq⟩ := ih
      constructor
      · exact ⟨r0, by rw [hr0]; simp [List.append_assoc]⟩
      · intro h2
        simp only at h2
        rw [heq h2]

/-- C9 amended.  The pairs actually returned are always an initial segment
of the best-effort pairs (the scan stops, without raising, at the first
in-loop stat failure and returns what it has); on a walk with no stat
failures the two scans agree, and unlistable subtrees never raise because
`os.walk` omits them. -/
theorem c9_amended_scan_is_truncated (walk : List WalkEntry) :
    (∃ rest, bestEffortScan walk = find_potential_duplicates walk ++ rest) ∧
    (statErrorFree walk = true → find_potential_duplicates walk = bestEffortScan walk) := by
  unfold find_potential_duplicates
  induction walk with
  | nil => exact ⟨⟨[], rfl⟩, fun _ => rfl⟩
  | cons e rest ih =>
    have hbs : bestEffortScan (e :: rest) =
        bestEffortFiles e.root e.dirs e.files ++ bestEffortScan rest := by
      unfold bestEffortScan
      rw [List.map_cons, List.flatten_cons]
    obtain ⟨⟨r0, hr0⟩, hfeq⟩ := scanFilesHere_agree e.root e.dirs e.files
    obtain ⟨⟨r1, hr1⟩, hweq⟩ := ih
    cases hab : (scanFilesHere e.root e.dirs e.files).2 with
    | true =>
      have hsw : scanWalk (e :: rest) = scanFilesHere e.root e.dirs e.files := by
        conv_lhs => rw [scanWalk]
        rw [if_pos hab]
      constructor
      · exact ⟨r0 ++ bestEffortScan rest, by
          rw [hbs, hr0, hsw]; simp [List.append_assoc]⟩
      · intro hfree
        rw [statErrorFree, List.all_cons, Bool.and_eq_true] at hfree
        have := scanFilesHere_noabort e.root e.dirs e.files hfree.1
        rw [hab] at this
        exact Bool.noConfusion this
    | false =>
      have hsw : scanWalk (e :: rest) =
          ((scanFilesHere e.root e.dirs e.files).1 ++ (scanWalk rest).1,
            (scanWalk rest).2) := by
        conv_lhs => rw [scanWalk]
        rw [if_neg (by rw [hab]; exact Bool.false_ne_true)]
      constructor
      · refine ⟨r1, ?_⟩
        rw [hbs, hfeq hab, hsw, hr1]
        simp [List.append_assoc]
      · intro hfree
        rw [statErrorFree, List.all_cons, Bool.and_eq_true] at hfree
        rw [hsw, hbs, hfeq hab]
        have : statErrorFree rest = true := by
          rw [statErrorFree]; exact hfree.2
        rw [hweq this]

/-- C9 witness: on a stat-error-free walk the scan equals the best-effort
scan. -/
theorem c9_amended_witness :
    find_potential_duplicates walkOk = bestEffortScan walkOk :=
  (c9_amended_scan_is_truncated walkOk).2 (by decide)

end Unclutter
